import Mathlib

/-
Verification of the dashboardlucas inventory/sales tracker.

The definitions below are a shallow embedding of the TypeScript source:
JS numbers are modelled as rationals, JS timestamps as integers, optional
and possibly-undefined values as Option, and the Supabase item store as a
list of database rows manipulated by pure create/update/delete functions.
-/

namespace DashSpec

/-- Condition of an inventory item, the source type ItemCondition. -/
inductive ItemCondition
  | nuevo
  | semi_uso
  | usado
deriving DecidableEq, Repr

/-- Status of an inventory item, the source type ItemStatus. -/
inductive ItemStatus
  | in_stock
  | sold
deriving DecidableEq, Repr

/-- Disposition of a batch line item: to be sold, or kept. -/
inductive Disposition
  | sell
  | keep
deriving DecidableEq, Repr

/-- JS "x || y" on numbers: x is falsy exactly when it is 0. -/
def jsOrN (x y : ℚ) : ℚ := if x = 0 then y else x

/-- JS "x || y" where x is a possibly-undefined number: undefined and 0 are falsy. -/
def jsOrQ (x : Option ℚ) (y : ℚ) : ℚ :=
  match x with
  | some v => jsOrN v y
  | none => y

/-- Truthiness of a possibly-undefined string: undefined and the empty string are falsy. -/
def truthyStr (s : Option String) : Bool :=
  match s with
  | some v => v != ""
  | none => false

/-- JS "x || y" where x is a possibly-undefined string, treating the empty string as falsy. -/
def jsOrStr (x : Option String) (y : String) : String :=
  match x with
  | some v => if v = "" then y else v
  | none => y

/-- JS Math.round: round half toward positive infinity. -/
def jsRound (q : ℚ) : Int := ⌊q + 1 / 2⌋

/-- JS Math.floor. -/
def jsFloor (q : ℚ) : Int := ⌊q⌋

/-! ## Price allocator (BulkPricingBoard, part_001 lines 2715-2729) -/

/-- A transient batch line item, the source type PricingItem.  The disposition
field is an Option because records parsed back from storage may lack it; the
code normalizes any missing disposition to sell. -/
structure PricingItem where
  id : Nat
  productName : String
  quantity : ℚ
  listedUnitPrice : ℚ
  unitSalePrice : ℚ
  condition : ItemCondition
  disposition : Option Disposition
deriving DecidableEq, Repr

/-- The normalization of batch items (part_001 line 2715): a missing disposition defaults to sell. -/
def normalizedItems (batchItems : List PricingItem) : List PricingItem :=
  batchItems.map fun item => { item with disposition := some (item.disposition.getD Disposition.sell) }

/-- The derived batch economics computed by BulkPricingBoard. -/
structure BatchEconomics where
  listedSubtotal : ℚ
  allocationFactor : ℚ
  totalSellRevenue : ℚ
  retainedValue : ℚ
  sellCostAdjusted : ℚ
  expectedProfit : ℚ
  effectiveCostToRecover : ℚ
  totalEconomicValue : ℚ
deriving Repr

/-- Translation of the derived values of BulkPricingBoard (part_001 lines 2715-2729). -/
def batchEconomics (totalPaid : ℚ) (batchItems : List PricingItem) : BatchEconomics :=
  let ni := normalizedItems batchItems
  let listedSubtotal := ni.foldl (fun acc item => acc + item.listedUnitPrice * item.quantity) 0
  let allocationFactor := if listedSubtotal > 0 then totalPaid / listedSubtotal else 1
  let totalSellRevenue :=
    (ni.filter fun item => decide (item.disposition = some Disposition.sell)).foldl
      (fun acc item => acc + item.unitSalePrice * item.quantity) 0
  let retainedValue :=
    (ni.filter fun item => decide (item.disposition = some Disposition.keep)).foldl
      (fun acc item => acc + item.listedUnitPrice * allocationFactor * item.quantity) 0
  let sellCostAdjusted :=
    (ni.filter fun item => decide (item.disposition = some Disposition.sell)).foldl
      (fun acc item => acc + item.listedUnitPrice * allocationFactor * item.quantity) 0
  let expectedProfit := totalSellRevenue - sellCostAdjusted
  let effectiveCostToRecover := max (totalPaid - retainedValue) 0
  let totalEconomicValue := expectedProfit + retainedValue
  { listedSubtotal := listedSubtotal
    allocationFactor := allocationFactor
    totalSellRevenue := totalSellRevenue
    retainedValue := retainedValue
    sellCostAdjusted := sellCostAdjusted
    expectedProfit := expectedProfit
    effectiveCostToRecover := effectiveCostToRecover
    totalEconomicValue := totalEconomicValue }

/-! ### Allocator lemmas -/

lemma foldl_add_eq {α : Type} (f : α → ℚ) :
    ∀ (l : List α) (a : ℚ), l.foldl (fun acc x => acc + f x) a = a + (l.map f).sum := by
  intro l
  induction l with
  | nil => intro a; simp
  | cons x xs ih =>
    intro a
    simp only [List.foldl_cons, List.map_cons, List.sum_cons, ih]
    ring

lemma sum_partition (g : PricingItem → ℚ) :
    ∀ l : List PricingItem,
      (∀ i ∈ l, i.disposition = some Disposition.sell ∨ i.disposition = some Disposition.keep) →
      ((l.filter fun i => decide (i.disposition = some Disposition.sell)).map g).sum
        + ((l.filter fun i => decide (i.disposition = some Disposition.keep)).map g).sum
        = (l.map g).sum := by
  intro l
  induction l with
  | nil => intro _; simp
  | cons x xs ih =>
    intro h
    have hx := h x (by simp)
    have hxs : ∀ i ∈ xs, i.disposition = some Disposition.sell ∨ i.disposition = some Disposition.keep :=
      fun i hi => h i (List.mem_cons_of_mem x hi)
    rcases hx with hx | hx <;>
      simp [List.filter_cons, hx, ← ih hxs] <;> ring

lemma normalized_disposition (l : List PricingItem) :
    ∀ i ∈ normalizedItems l,
      i.disposition = some Disposition.sell ∨ i.disposition = some Disposition.keep := by
  intro i hi
  rcases List.mem_map.mp hi with ⟨j, _, rfl⟩
  cases h : j.disposition.getD Disposition.sell <;> simp [h]

lemma sum_map_factor (c : ℚ) (l : List PricingItem) :
    (l.map fun i => i.listedUnitPrice * c * i.quantity).sum
      = c * (l.map fun i => i.listedUnitPrice * i.quantity).sum := by
  induction l with
  | nil => simp
  | cons x xs ih => simp [ih]; ring

lemma be_listedSubtotal (t : ℚ) (l : List PricingItem) :
    (batchEconomics t l).listedSubtotal
      = ((normalizedItems l).map fun i => i.listedUnitPrice * i.quantity).sum := by
  show (normalizedItems l).foldl (fun acc item => acc + item.listedUnitPrice * item.quantity) 0
      = ((normalizedItems l).map fun i => i.listedUnitPrice * i.quantity).sum
  rw [foldl_add_eq]
  ring

lemma be_expectedProfit (t : ℚ) (l : List PricingItem) :
    (batchEconomics t l).expectedProfit
      = (batchEconomics t l).totalSellRevenue - (batchEconomics t l).sellCostAdjusted := rfl

lemma be_allocationFactor (t : ℚ) (l : List PricingItem) :
    (batchEconomics t l).allocationFactor
      = if (batchEconomics t l).listedSubtotal > 0
        then t / (batchEconomics t l).listedSubtotal else 1 := rfl

lemma be_sell_add_keep (t : ℚ) (l : List PricingItem) :
    (batchEconomics t l).sellCostAdjusted + (batchEconomics t l).retainedValue
      = (batchEconomics t l).allocationFactor * (batchEconomics t l).listedSubtotal := by
  have hsell : (batchEconomics t l).sellCostAdjusted
      = (((normalizedItems l).filter fun i => decide (i.disposition = some Disposition.sell)).map
          fun i => i.listedUnitPrice * (batchEconomics t l).allocationFactor * i.quantity).sum := by
    show (((normalizedItems l).filter fun i => decide (i.disposition = some Disposition.sell)).foldl
        (fun acc item => acc + item.listedUnitPrice * (batchEconomics t l).allocationFactor * item.quantity) 0) = _
    rw [foldl_add_eq]; ring
  have hkeep : (batchEconomics t l).retainedValue
      = (((normalizedItems l).filter fun i => decide (i.disposition = some Disposition.keep)).map
          fun i => i.listedUnitPrice * (batchEconomics t l).allocationFactor * i.quantity).sum := by
    show (((normalizedItems l).filter fun i => decide (i.disposition = some Disposition.keep)).foldl
        (fun acc item => acc + item.listedUnitPrice * (batchEconomics t l).allocationFactor * item.quantity) 0) = _
    rw [foldl_add_eq]; ring
  rw [hsell, hkeep,
    sum_partition (fun i => i.listedUnitPrice * (batchEconomics t l).allocationFactor * i.quantity)
      (normalizedItems l) (normalized_disposition l),
    sum_map_factor, be_listedSubtotal]

/-- C1: for every batch with positive listed subtotal, the allocation conserves the
total payment: the adjusted cost of the sell items plus the retained value of the
keep items equals totalPaid (here exactly, hence in particular up to rounding). -/
theorem allocation_conserves_totalPaid (totalPaid : ℚ) (batchItems : List PricingItem)
    (h : 0 < (batchEconomics totalPaid batchItems).listedSubtotal) :
    (batchEconomics totalPaid batchItems).sellCostAdjusted
      + (batchEconomics totalPaid batchItems).retainedValue = totalPaid := by
  rw [be_sell_add_keep, be_allocationFactor, if_pos h, div_mul_cancel₀]
  exact ne_of_gt h

/-- Witness for C1 at a concrete batch: one sell item listed 60000 x1, one keep
item listed 20000 x2, totalPaid 80000. -/
theorem allocation_conserves_totalPaid_witness :
    0 < (batchEconomics 80000
        [⟨1, "a", 1, 60000, 70000, ItemCondition.nuevo, some Disposition.sell⟩,
         ⟨2, "b", 2, 20000, 0, ItemCondition.nuevo, some Disposition.keep⟩]).listedSubtotal ∧
    (batchEconomics 80000
        [⟨1, "a", 1, 60000, 70000, ItemCondition.nuevo, some Disposition.sell⟩,
         ⟨2, "b", 2, 20000, 0, ItemCondition.nuevo, some Disposition.keep⟩]).sellCostAdjusted
      + (batchEconomics 80000
        [⟨1, "a", 1, 60000, 70000, ItemCondition.nuevo, some Disposition.sell⟩,
         ⟨2, "b", 2, 20000, 0, ItemCondition.nuevo, some Disposition.keep⟩]).retainedValue
      = 80000 :=
  ⟨by norm_num [be_listedSubtotal, normalizedItems],
   allocation_conserves_totalPaid 80000
     [⟨1, "a", 1, 60000, 70000, ItemCondition.nuevo, some Disposition.sell⟩,
      ⟨2, "b", 2, 20000, 0, ItemCondition.nuevo, some Disposition.keep⟩]
     (by norm_num [be_listedSubtotal, normalizedItems])⟩

/-- C4: for every totalPaid and line-item list (hence for every allocation factor,
including factor 0, negative totalPaid and zero listed subtotal),
expectedProfit + sellCostAdjusted equals totalSellRevenue exactly. -/
theorem profit_plus_cost_eq_revenue (totalPaid : ℚ) (batchItems : List PricingItem) :
    (batchEconomics totalPaid batchItems).expectedProfit
      + (batchEconomics totalPaid batchItems).sellCostAdjusted
      = (batchEconomics totalPaid batchItems).totalSellRevenue := by
  rw [be_expectedProfit]; ring

/-- C9: the allocation factor is totalPaid / listedSubtotal when the listed subtotal
is positive and 1 when it is zero, where the listed subtotal is the sum of
listedUnitPrice times quantity over all line items. -/
theorem allocation_factor_spec (totalPaid : ℚ) (batchItems : List PricingItem) :
    (batchEconomics totalPaid batchItems).listedSubtotal
        = (batchItems.map fun i => i.listedUnitPrice * i.quantity).sum ∧
    (0 < (batchEconomics totalPaid batchItems).listedSubtotal →
      (batchEconomics totalPaid batchItems).allocationFactor
        = totalPaid / (batchEconomics totalPaid batchItems).listedSubtotal) ∧
    ((batchEconomics totalPaid batchItems).listedSubtotal = 0 →
      (batchEconomics totalPaid batchItems).allocationFactor = 1) := by
  refine ⟨?_, ?_, ?_⟩
  · rw [be_listedSubtotal, normalizedItems, List.map_map]
    rfl
  · intro h
    rw [be_allocationFactor, if_pos h]
  · intro h
    rw [be_allocationFactor, h]
    simp

/-- Witness for C9 at a concrete batch with listed subtotal 100000. -/
theorem allocation_factor_spec_witness :
    (batchEconomics 80000
        [⟨1, "a", 2, 50000, 60000, ItemCondition.nuevo, some Disposition.sell⟩]).listedSubtotal
      = ([⟨1, "a", 2, 50000, 60000, ItemCondition.nuevo, some Disposition.sell⟩].map
          fun i : PricingItem => i.listedUnitPrice * i.quantity).sum ∧
    (batchEconomics 80000
        [⟨1, "a", 2, 50000, 60000, ItemCondition.nuevo, some Disposition.sell⟩]).allocationFactor
      = 80000 / (batchEconomics 80000
        [⟨1, "a", 2, 50000, 60000, ItemCondition.nuevo, some Disposition.sell⟩]).listedSubtotal :=
  ⟨(allocation_factor_spec 80000 _).1,
   (allocation_factor_spec 80000
      [⟨1, "a", 2, 50000, 60000, ItemCondition.nuevo, some Disposition.sell⟩]).2.1
     (by norm_num [be_listedSubtotal, normalizedItems])⟩

/-! ## Item store model (itemService in part_001, schema in part_000)

The persistent store is a list of database rows.  Timestamps are integers
(conversion between a date string and its timestamp is the identity here). -/

/-- A persisted row of the items table (snake_case columns, part_000 schema).
The sale_price, sale_date and batch_ref columns are nullable. -/
structure DbItem where
  id : Nat
  product_name : String
  purchase_price : ℚ
  sale_price : Option ℚ
  quantity : Int
  date : Int
  sale_date : Option Int
  status : ItemStatus
  item_condition : ItemCondition
  batch_ref : Option String
deriving DecidableEq, Repr

/-- The application model Item (camelCase), as produced by mapFromDb. -/
structure Item where
  id : Nat
  productName : String
  purchasePrice : ℚ
  salePrice : Option ℚ
  quantity : Int
  date : Int
  saleDate : Option Int
  status : ItemStatus
  condition : ItemCondition
  batchRef : Option String
deriving DecidableEq, Repr

/-- Translation of mapFromDb (part_001 lines 17-28).  A stored sale_price of 0 is
falsy in JS, so it maps to an absent salePrice; an empty batch_ref likewise maps
to an absent batchRef.  The date fallback to created_at only concerns legacy rows
with a null date and is not modelled: date is non-null in the schema. -/
def mapFromDb (r : DbItem) : Item :=
  { id := r.id
    productName := r.product_name
    purchasePrice := r.purchase_price
    salePrice := match r.sale_price with
      | some p => if p = 0 then none else some p
      | none => none
    quantity := r.quantity
    date := r.date
    saleDate := r.sale_date
    status := r.status
    condition := r.item_condition
    batchRef := match r.batch_ref with
      | some s => if s = "" then none else some s
      | none => none }

/-- A partial item (the TS Partial Item): a field holds none when it is absent
or explicitly undefined, which JS cannot distinguish through mapToDb. -/
structure ItemUpdates where
  productName : Option String := none
  purchasePrice : Option ℚ := none
  salePrice : Option ℚ := none
  quantity : Option Int := none
  date : Option Int := none
  saleDate : Option Int := none
  status : Option ItemStatus := none
  condition : Option ItemCondition := none
  batchRef : Option String := none
deriving DecidableEq, Repr

/-- The column payload produced by mapToDb: a column holds none when it is
omitted from the write. -/
structure DbUpdates where
  product_name : Option String := none
  purchase_price : Option ℚ := none
  sale_price : Option ℚ := none
  quantity : Option Int := none
  date : Option Int := none
  sale_date : Option Int := none
  status : Option ItemStatus := none
  item_condition : Option ItemCondition := none
  batch_ref : Option String := none
deriving DecidableEq, Repr

/-- Translation of mapToDb (part_001 lines 31-43): each column is included in the
payload exactly when the corresponding field is not undefined. -/
def mapToDb (item : ItemUpdates) : DbUpdates :=
  { product_name := item.productName
    purchase_price := item.purchasePrice
    sale_price := item.salePrice
    quantity := item.quantity
    date := item.date
    sale_date := item.saleDate
    status := item.status
    item_condition := item.condition
    batch_ref := item.batchRef }

/-- Effect of an UPDATE with a partial column payload on one stored row: columns
absent from the payload keep their previous value. -/
def applyDb (u : DbUpdates) (r : DbItem) : DbItem :=
  { id := r.id
    product_name := u.product_name.getD r.product_name
    purchase_price := u.purchase_price.getD r.purchase_price
    sale_price := match u.sale_price with
      | some v => some v
      | none => r.sale_price
    quantity := u.quantity.getD r.quantity
    date := u.date.getD r.date
    sale_date := match u.sale_date with
      | some v => some v
      | none => r.sale_date
    status := u.status.getD r.status
    item_condition := u.item_condition.getD r.item_condition
    batch_ref := match u.batch_ref with
      | some v => some v
      | none => r.batch_ref }

/-- A new item passed to itemService.createItem (an Item without id). -/
structure NewItem where
  productName : String
  purchasePrice : ℚ
  salePrice : Option ℚ
  quantity : Int
  date : Int
  saleDate : Option Int
  status : ItemStatus
  condition : ItemCondition
  batchRef : Option String
deriving DecidableEq, Repr

/-- The row inserted for a new item; the store assigns the fresh id. -/
def rowOfNew (n : NewItem) (freshId : Nat) : DbItem :=
  { id := freshId
    product_name := n.productName
    purchase_price := n.purchasePrice
    sale_price := n.salePrice
    quantity := n.quantity
    date := n.date
    sale_date := n.saleDate
    status := n.status
    item_condition := n.condition
    batch_ref := n.batchRef }

/-- itemService.createItem on the error-free path: insert one row. -/
def createItem (store : List DbItem) (n : NewItem) (freshId : Nat) : List DbItem :=
  store ++ [rowOfNew n freshId]

/-- itemService.updateItem on the error-free path: apply the mapToDb payload to
the row with the given id. -/
def updateItem (store : List DbItem) (id : Nat) (updates : ItemUpdates) : List DbItem :=
  store.map fun r => if r.id = id then applyDb (mapToDb updates) r else r

/-- itemService.deleteItem: remove the row with the given id. -/
def deleteItem (store : List DbItem) (id : Nat) : List DbItem :=
  store.filter fun r => decide (r.id ≠ id)

/-- The transient item-to-batch side index (Record of string to string in the
source), as an association list from item id to batch code. -/
def BatchMap : Type := List (Nat × String)

/-- Lookup in the side index, JS object indexing. -/
def mapLookup (m : BatchMap) (id : Nat) : Option String :=
  List.lookup id m

/-- getItemBatchRef (part_001 line 1084): an explicit truthy batchRef wins,
otherwise the side index is consulted. -/
def getItemBatchRef (m : BatchMap) (item : Item) : Option String :=
  if truthyStr item.batchRef then item.batchRef else mapLookup m item.id

/-! ## Item lifecycle (handleSaveItem for an existing item, part_001 lines 1294-1398) -/

/-- The fields of the edit form (formData) that handleSaveItem reads for an
existing item.  The quantity field is a raw number input; status is always set
by the form. -/
structure FormData where
  productName : Option String := none
  purchasePrice : Option ℚ := none
  salePrice : Option ℚ := none
  quantity : Option ℚ := none
  date : Option Int := none
  status : ItemStatus
  condition : Option ItemCondition := none
deriving DecidableEq, Repr

/-- The user-visible rejection of a sale (the alert in part_001 line 1312),
carrying the requested quantity and the available stock. -/
inductive SaveError
  | insufficientStock (requested : Int) (available : Int)
deriving DecidableEq, Repr

/-- getISODate (part_001 lines 1297-1300): an empty date string falls back to the
current time; date strings are modelled by their timestamps. -/
def getISODate (now : Int) (dateStr : Option Int) : Int :=
  match dateStr with
  | some d => d
  | none => now

/-- The condition used while editing: (formData.condition as ItemCondition) ||
editingItem.condition with a final dead fallback to nuevo, condition being
non-null. -/
def effCondition (form : FormData) (editing : Item) : ItemCondition :=
  form.condition.getD editing.condition

/-- formDateISO (part_001 line 1306): formData.date ? getISODate(formData.date)
: editingItem.date. -/
def effFormDate (now : Int) (form : FormData) (editing : Item) : Int :=
  match form.date with
  | some d => getISODate now (some d)
  | none => editing.date

/-- The effective quantity (part_001 line 1307):
Math.max(1, Math.floor(Number(formData.quantity) || editingItem.quantity)). -/
def effQuantity (form : FormData) (editing : Item) : Int :=
  max 1 (jsFloor (jsOrQ form.quantity (editing.quantity : ℚ)))

/-- The unit sale price of a sale (part_001 line 1316):
Number(formData.salePrice) || Number(editingItem.salePrice) || editingItem.purchasePrice. -/
def effUnitSalePrice (form : FormData) (editing : Item) : ℚ :=
  jsOrQ form.salePrice (jsOrQ editing.salePrice editing.purchasePrice)

/-- The merge predicate for returning a sold item to stock (part_001 lines
1354-1361): another in-stock item matching on (possibly form-overridden) name,
purchase price, condition, and resolved batch reference. -/
def mergePred (m : BatchMap) (editing : Item) (form : FormData) (i : Item) : Bool :=
  decide (i.id ≠ editing.id) &&
  decide (i.status = ItemStatus.in_stock) &&
  decide (i.productName = jsOrStr form.productName editing.productName) &&
  decide (i.purchasePrice = jsOrQ form.purchasePrice editing.purchasePrice) &&
  decide (i.condition = effCondition form editing) &&
  decide (getItemBatchRef m i = editing.batchRef)

/-- Translation of the editingItem branch of handleSaveItem (part_001 lines
1303-1398).  The store is the list of persisted rows; the application item list
searched by the merge branch is its mapFromDb image.  The store effects are, in
source order: for a stock sale, createItem then update-or-delete of the source;
for a merged return, update of the matching lot then delete of the sold item;
otherwise a single field-level update. -/
def handleSaveEditing (m : BatchMap) (store : List DbItem) (editing : Item)
    (form : FormData) (freshId : Nat) (now : Int) : Except SaveError (List DbItem) :=
  let status := form.status
  let condition := effCondition form editing
  let formDateISO := effFormDate now form editing
  let quantity := effQuantity form editing
  if editing.status = ItemStatus.in_stock ∧ status = ItemStatus.sold then
    if editing.quantity < quantity then
      Except.error (SaveError.insufficientStock quantity editing.quantity)
    else
      let unitSalePrice := effUnitSalePrice form editing
      let s1 := createItem store
        { productName := editing.productName
          purchasePrice := editing.purchasePrice
          salePrice := some unitSalePrice
          quantity := quantity
          date := editing.date
          saleDate := some formDateISO
          status := ItemStatus.sold
          condition := editing.condition
          batchRef := editing.batchRef } freshId
      let remaining := editing.quantity - quantity
      if 0 < remaining then
        Except.ok (updateItem s1 editing.id { quantity := some remaining })
      else
        Except.ok (deleteItem s1 editing.id)
  else
    let saleDate : Option Int := if status = ItemStatus.sold then some formDateISO else none
    let inPlace : List DbItem :=
      updateItem store editing.id
        { productName := some (form.productName.getD editing.productName)
          purchasePrice := some (jsOrQ form.purchasePrice editing.purchasePrice)
          salePrice := match form.salePrice with
            | some v => some (jsOrN v 0)
            | none => editing.salePrice
          quantity := some quantity
          date := some formDateISO
          saleDate := saleDate
          status := some status
          condition := some condition
          batchRef := editing.batchRef }
    if editing.status = ItemStatus.sold ∧ status = ItemStatus.in_stock then
      match (store.map mapFromDb).find? (mergePred m editing form) with
      | some existingStock =>
          Except.ok (deleteItem
            (updateItem store existingStock.id
              { quantity := some (existingStock.quantity + quantity) })
            editing.id)
      | none => Except.ok inPlace
    else
      Except.ok inPlace

/-- C10: the update operation writes only the fields explicitly present with
defined values: a field that is undefined in the updates is omitted from the
persisted write and the stored column keeps its previous value (in particular
saleDate, salePrice and batchRef are never cleared by an undefined update), a
defined field is written, ids are preserved, and rows with other ids are kept
unchanged. -/
theorem updateItem_frame (store : List DbItem) (idv : Nat) (u : ItemUpdates) (r : DbItem) :
    (r ∈ store → r.id ≠ idv → r ∈ updateItem store idv u) ∧
    (r ∈ store → r.id = idv → applyDb (mapToDb u) r ∈ updateItem store idv u) ∧
    (applyDb (mapToDb u) r).id = r.id ∧
    (u.saleDate = none → (applyDb (mapToDb u) r).sale_date = r.sale_date) ∧
    (u.salePrice = none → (applyDb (mapToDb u) r).sale_price = r.sale_price) ∧
    (u.batchRef = none → (applyDb (mapToDb u) r).batch_ref = r.batch_ref) ∧
    (u.productName = none → (applyDb (mapToDb u) r).product_name = r.product_name) ∧
    (u.purchasePrice = none → (applyDb (mapToDb u) r).purchase_price = r.purchase_price) ∧
    (u.quantity = none → (applyDb (mapToDb u) r).quantity = r.quantity) ∧
    (u.date = none → (applyDb (mapToDb u) r).date = r.date) ∧
    (u.status = none → (applyDb (mapToDb u) r).status = r.status) ∧
    (u.condition = none → (applyDb (mapToDb u) r).item_condition = r.item_condition) ∧
    (∀ v, u.saleDate = some v → (applyDb (mapToDb u) r).sale_date = some v) ∧
    (∀ v, u.salePrice = some v → (applyDb (mapToDb u) r).sale_price = some v) ∧
    (∀ v, u.batchRef = some v → (applyDb (mapToDb u) r).batch_ref = some v) ∧
    (∀ v, u.productName = some v → (applyDb (mapToDb u) r).product_name = v) ∧
    (∀ v, u.purchasePrice = some v → (applyDb (mapToDb u) r).purchase_price = v) ∧
    (∀ v, u.quantity = some v → (applyDb (mapToDb u) r).quantity = v) ∧
    (∀ v, u.date = some v → (applyDb (mapToDb u) r).date = v) ∧
    (∀ v, u.status = some v → (applyDb (mapToDb u) r).status = v) ∧
    (∀ v, u.condition = some v → (applyDb (mapToDb u) r).item_condition = v) := by
  refine ⟨?_, ?_, rfl, ?_, ?_, ?_, ?_, ?_, ?_, ?_, ?_, ?_, ?_, ?_, ?_, ?_, ?_, ?_, ?_, ?_, ?_⟩
  · intro hr hne
    refine List.mem_map.mpr ⟨r, hr, ?_⟩
    simp [hne]
  · intro hr heq
    refine List.mem_map.mpr ⟨r, hr, ?_⟩
    simp [heq]
  all_goals
    first
      | (intro h; simp [applyDb, mapToDb, h])
      | (intro v h; simp [applyDb, mapToDb, h])

/-- Witness for C10: a concrete update that sets quantity, leaves saleDate and
batchRef undefined, and targets a row whose sale_date is set. -/
theorem updateItem_frame_witness :
    ((applyDb (mapToDb { quantity := some 7 }) ⟨1, "a", 10, some 30, 4, 0, some 50, ItemStatus.sold, ItemCondition.nuevo, some "T-001"⟩).sale_date = some 50 ∧
     (applyDb (mapToDb { quantity := some 7 }) ⟨1, "a", 10, some 30, 4, 0, some 50, ItemStatus.sold, ItemCondition.nuevo, some "T-001"⟩).batch_ref = some "T-001" ∧
     (applyDb (mapToDb { quantity := some 7 }) ⟨1, "a", 10, some 30, 4, 0, some 50, ItemStatus.sold, ItemCondition.nuevo, some "T-001"⟩).quantity = 7) := by
  obtain ⟨-, -, -, hsd, -, hbr, -, -, -, -, -, -, -, -, -, -, -, hq, -, -, -⟩ :=
    updateItem_frame [] 1 { quantity := some 7 }
      ⟨1, "a", 10, some 30, 4, 0, some 50, ItemStatus.sold, ItemCondition.nuevo, some "T-001"⟩
  exact ⟨hsd rfl, hbr rfl, hq 7 rfl⟩

/-- C3: the saleDate-iff-sold invariant fails on the code.  Converting a sold
item to in_stock in place computes saleDate = undefined, but mapToDb omits
undefined fields from the write, so the stored sale_date survives: at this
concrete input the persisted row ends with status in_stock and sale_date still
present. -/
theorem sold_to_stock_keeps_stored_saleDate :
    handleSaveEditing []
        [⟨1, "a", 10, some 30, 1, 0, some 50, ItemStatus.sold, ItemCondition.nuevo, none⟩]
        ⟨1, "a", 10, some 30, 1, 0, some 50, ItemStatus.sold, ItemCondition.nuevo, none⟩
        { status := ItemStatus.in_stock } 7 999
      = Except.ok
        [⟨1, "a", 10, some 30, 1, 0, some 50, ItemStatus.in_stock, ItemCondition.nuevo, none⟩] := by
  norm_num [handleSaveEditing, updateItem, applyDb, mapToDb, mergePred, mapFromDb,
    effCondition, effFormDate, effQuantity, effUnitSalePrice, jsOrQ, jsOrN, jsOrStr,
    jsFloor, getItemBatchRef, truthyStr, mapLookup]
  simp

/-- C7: returning a sold item to stock when another in-stock item matches on
name, purchase price, condition and resolved batch reference merges into that
lot: its quantity grows by the returned quantity, the sold item is deleted, and
no new lot is created. -/
theorem return_merge_spec (m : BatchMap) (store : List DbItem) (editing : Item)
    (form : FormData) (freshId : Nat) (now : Int) (j : Item)
    (hsold : editing.status = ItemStatus.sold)
    (hform : form.status = ItemStatus.in_stock)
    (hfind : (store.map mapFromDb).find? (mergePred m editing form) = some j) :
    handleSaveEditing m store editing form freshId now
      = Except.ok (
          (store.map fun r => if r.id = j.id
            then { r with quantity := j.quantity + effQuantity form editing } else r).filter
            fun r => decide (r.id ≠ editing.id)) := by
  simp [handleSaveEditing, hsold, hform, hfind, updateItem, deleteItem, applyDb, mapToDb]

/-- Witness for C7: a sold item (id 2) is returned while a matching stock lot
(id 1, quantity 4) exists; the lot ends with quantity 6 and the sold item is
gone. -/
theorem return_merge_spec_witness :
    handleSaveEditing []
        [⟨1, "a", 10, none, 4, 0, none, ItemStatus.in_stock, ItemCondition.nuevo, none⟩,
         ⟨2, "a", 10, some 30, 2, 0, some 50, ItemStatus.sold, ItemCondition.nuevo, none⟩]
        ⟨2, "a", 10, some 30, 2, 0, some 50, ItemStatus.sold, ItemCondition.nuevo, none⟩
        { status := ItemStatus.in_stock } 99 200
      = Except.ok
        [⟨1, "a", 10, none, 6, 0, none, ItemStatus.in_stock, ItemCondition.nuevo, none⟩] := by
  have h := return_merge_spec []
      [⟨1, "a", 10, none, 4, 0, none, ItemStatus.in_stock, ItemCondition.nuevo, none⟩,
       ⟨2, "a", 10, some 30, 2, 0, some 50, ItemStatus.sold, ItemCondition.nuevo, none⟩]
      ⟨2, "a", 10, some 30, 2, 0, some 50, ItemStatus.sold, ItemCondition.nuevo, none⟩
      { status := ItemStatus.in_stock } 99 200
      ⟨1, "a", 10, none, 4, 0, none, ItemStatus.in_stock, ItemCondition.nuevo, none⟩
      rfl rfl (by decide)
  rw [h]
  norm_num [effQuantity, jsOrQ, jsFloor]

/-- C2 (amended): selling from stock rejects with a user-visible error and no
store mutation when the requested quantity exceeds the stock; otherwise exactly
one new sold row with a fresh identity is created, carrying productName,
purchasePrice, condition and batchRef copied from the source, with quantity
equal to the requested quantity and saleDate equal to the form date (falling
back to the source item date when the form has none, rather than to the current
time), while the source lot is deleted on a full sale or has only its quantity
decremented on a partial sale. -/
theorem sell_from_stock_spec (m : BatchMap) (store : List DbItem) (editing : Item)
    (form : FormData) (freshId : Nat) (now : Int)
    (hst : editing.status = ItemStatus.in_stock)
    (hfs : form.status = ItemStatus.sold)
    (hfresh : editing.id ≠ freshId) :
    (editing.quantity < effQuantity form editing →
      handleSaveEditing m store editing form freshId now
        = Except.error (SaveError.insufficientStock (effQuantity form editing) editing.quantity)) ∧
    (effQuantity form editing ≤ editing.quantity →
      handleSaveEditing m store editing form freshId now
        = Except.ok (
            (if effQuantity form editing < editing.quantity then
              store.map fun r => if r.id = editing.id
                then { r with quantity := editing.quantity - effQuantity form editing } else r
            else
              store.filter fun r => decide (r.id ≠ editing.id))
            ++ [{ id := freshId
                  product_name := editing.productName
                  purchase_price := editing.purchasePrice
                  sale_price := some (effUnitSalePrice form editing)
                  quantity := effQuantity form editing
                  date := editing.date
                  sale_date := some (effFormDate now form editing)
                  status := ItemStatus.sold
                  item_condition := editing.condition
                  batch_ref := editing.batchRef }])) := by
  constructor
  · intro h
    simp [handleSaveEditing, hst, hfs, h]
  · intro h
    have hnl : ¬ editing.quantity < effQuantity form editing := not_lt.mpr h
    by_cases hq : effQuantity form editing < editing.quantity
    · have hrem : 0 < editing.quantity - effQuantity form editing := by omega
      simp only [handleSaveEditing, hst, hfs, and_self, if_true, if_neg hnl, if_pos hrem,
        createItem, updateItem, deleteItem, rowOfNew, List.map_append, List.map_cons,
        List.map_nil, if_pos hq]
      simp [applyDb, mapToDb, Ne.symm hfresh]
    · have heq : effQuantity form editing = editing.quantity := le_antisymm h (not_lt.mp hq)
      simp only [handleSaveEditing, hst, hfs, and_self, if_true, if_neg hnl]
      simp [createItem, deleteItem, rowOfNew, heq, List.filter_append, hfresh,
        if_neg hq, Ne.symm hfresh]

/-- Witness for C2: a partial sale of 2 out of 5 units of a stock lot; the lot
keeps 3 units and a new sold row (fresh id 99) carries quantity 2 and the form
date 100 as sale_date. -/
theorem sell_from_stock_spec_witness :
    handleSaveEditing []
        [⟨1, "a", 10, none, 5, 0, none, ItemStatus.in_stock, ItemCondition.nuevo, none⟩]
        ⟨1, "a", 10, none, 5, 0, none, ItemStatus.in_stock, ItemCondition.nuevo, none⟩
        { status := ItemStatus.sold, quantity := some 2, salePrice := some 30, date := some 100 }
        99 200
      = Except.ok
        [⟨1, "a", 10, none, 3, 0, none, ItemStatus.in_stock, ItemCondition.nuevo, none⟩,
         ⟨99, "a", 10, some 30, 2, 0, some 100, ItemStatus.sold, ItemCondition.nuevo, none⟩] := by
  have h := (sell_from_stock_spec []
      [⟨1, "a", 10, none, 5, 0, none, ItemStatus.in_stock, ItemCondition.nuevo, none⟩]
      ⟨1, "a", 10, none, 5, 0, none, ItemStatus.in_stock, ItemCondition.nuevo, none⟩
      { status := ItemStatus.sold, quantity := some 2, salePrice := some 30, date := some 100 }
      99 200 rfl rfl (by decide)).2
      (by norm_num [effQuantity, jsOrQ, jsOrN, jsFloor])
  rw [h]
  norm_num [effQuantity, effUnitSalePrice, effFormDate, getISODate, jsOrQ, jsOrN, jsFloor]

/-- C2 counterexample: selling 2 of 5 units with form date 100 while the current
time is 200 produces a sold row whose sale_date is 100, not the current time, so
the claim that the new sold item gets saleDate = now is false at this input. -/
theorem sell_saleDate_not_now :
    ((handleSaveEditing []
        [⟨1, "a", 10, none, 5, 0, none, ItemStatus.in_stock, ItemCondition.nuevo, none⟩]
        ⟨1, "a", 10, none, 5, 0, none, ItemStatus.in_stock, ItemCondition.nuevo, none⟩
        { status := ItemStatus.sold, quantity := some 2, salePrice := some 30, date := some 100 }
        99 200).toOption.getD []).map (fun r => (r.id, r.sale_date))
      = [(1, none), (99, some 100)] ∧ (100 : Int) ≠ 200 := by
  constructor
  · norm_num [handleSaveEditing, createItem, updateItem, deleteItem, applyDb, mapToDb,
      rowOfNew, effCondition, effFormDate, effQuantity, effUnitSalePrice, getISODate,
      jsOrQ, jsOrN, jsOrStr, jsFloor, Except.toOption]
  · decide

/-! ## Batch reconciler (reconcileItemBatchMap, part_001 lines 991-1065) -/

/-- normalizeText (part_001 line 991): trim, lowercase, collapse internal
whitespace runs to single spaces. -/
def normalizeText (value : String) : String :=
  String.intercalate " " ((value.trim.toLower.split Char.isWhitespace).filter fun t => t != "")

/-- A line item of a batch record parsed back from local storage: every field
may be missing (the source treats the parsed history as Partial records). -/
structure RawPricingItem where
  productName : Option String := none
  quantity : Option ℚ := none
  unitSalePrice : Option ℚ := none
  condition : Option ItemCondition := none
  disposition : Option Disposition := none
deriving DecidableEq, Repr

/-- A batch record parsed back from local storage, restricted to the fields the
reconciler reads; each may be missing. -/
structure RawBatchRecord where
  batchCode : Option String := none
  createdAt : Option Int := none
  items : Option (List RawPricingItem) := none
deriving DecidableEq, Repr

/-- A normalized historical line item (part_001 lines 1026-1032). -/
structure RecItem where
  productName : String
  quantity : ℚ
  unitSalePrice : ℚ
  condition : ItemCondition
  disposition : Disposition
deriving DecidableEq, Repr

/-- The normalization and filtering of the line items of one record (part_001
lines 1025-1033): default every field, then keep only non-keep entries with a
non-empty product name. -/
def cleanRecordItems (record : RawBatchRecord) : List RecItem :=
  ((record.items.getD []).map fun entry =>
    ({ productName := jsOrStr entry.productName ""
       quantity := jsOrQ entry.quantity 1
       unitSalePrice := jsOrQ entry.unitSalePrice 0
       condition := entry.condition.getD ItemCondition.nuevo
       disposition := entry.disposition.getD Disposition.sell } : RecItem)).filter
    fun entry => decide (entry.disposition ≠ Disposition.keep) && decide (entry.productName ≠ "")

/-- The sale-price tie-break rank (part_001 lines 1044-1045): 1 when the
rounded persisted salePrice equals the rounded unitSalePrice of the line item. -/
def saleMatchN (recordItem : RecItem) (a : Item) : Nat :=
  if jsRound (jsOrQ a.salePrice 0) = jsRound (jsOrN recordItem.unitSalePrice 0) then 1 else 0

/-- The quantity distance (part_001 lines 1048-1049). -/
def qtyDistance (recordItem : RecItem) (a : Item) : ℚ :=
  |jsOrN (a.quantity : ℚ) 0 - recordItem.quantity|

/-- The date distance (part_001 lines 1052-1053). -/
def dateDistance (recordDate : Int) (a : Item) : Int :=
  |a.date - recordDate|

/-- The sort comparator of the candidate list (part_001 lines 1043-1054), as
the relation: a sorts before or with b (the comparator returns at most 0). -/
def candLe (recordItem : RecItem) (recordDate : Int) (a b : Item) : Bool :=
  let aSaleMatch := saleMatchN recordItem a
  let bSaleMatch := saleMatchN recordItem b
  if aSaleMatch ≠ bSaleMatch then decide (bSaleMatch < aSaleMatch)
  else if qtyDistance recordItem a ≠ qtyDistance recordItem b then
    decide (qtyDistance recordItem a < qtyDistance recordItem b)
  else decide (dateDistance recordDate a ≤ dateDistance recordDate b)

/-- The selected best match: head of the stable sort of the candidates by the
comparator (part_001 lines 1043-1055). -/
def bestMatch (recordItem : RecItem) (recordDate : Int) (candidates : List Item) : Option Item :=
  (candidates.mergeSort (candLe recordItem recordDate)).head?

/-- The mutable state of one reconciliation pass: the map being built, the
consumed item ids, and the change flag. -/
structure RecoState where
  nextMap : BatchMap
  usedIds : List Nat
  changed : Bool

/-- JS object assignment on the side index. -/
def mapInsert (m : BatchMap) (id : Nat) (code : String) : BatchMap :=
  (id, code) :: m

/-- Processing of one historical line item (part_001 lines 1035-1061): filter
the not-yet-consumed pool by normalized name and exact condition, pick the best
match, and tag it. -/
def processRecordItem (unassigned : List Item) (batchCode : String) (recordDate : Int)
    (s : RecoState) (recordItem : RecItem) : RecoState :=
  let candidates := ((unassigned.filter fun item => !(s.usedIds.contains item.id)).filter
      fun item => decide (normalizeText item.productName = normalizeText recordItem.productName)).filter
      fun item => decide (item.condition = recordItem.condition)
  if candidates.isEmpty then s
  else
    match bestMatch recordItem recordDate candidates with
    | none => s
    | some b =>
        { nextMap := mapInsert s.nextMap b.id batchCode
          usedIds := b.id :: s.usedIds
          changed := true }

/-- Processing of one historical record (part_001 lines 1022-1062). -/
def processRecord (unassigned : List Item) (now : Int) (s : RecoState)
    (record : RawBatchRecord) : RecoState :=
  let batchCode := record.batchCode.getD ""
  let recordDate := record.createdAt.getD now
  (cleanRecordItems record).foldl (processRecordItem unassigned batchCode recordDate) s

/-- The history preparation (part_001 lines 1007-1009): keep records with a
truthy batchCode and sort by createdAt descending (stable). -/
def prepHistory (parsedHistory : List RawBatchRecord) : List RawBatchRecord :=
  (parsedHistory.filter fun record => truthyStr record.batchCode).mergeSort
    fun a b => decide ((b.createdAt.getD 0) ≤ (a.createdAt.getD 0))

/-- Translation of reconcileItemBatchMap (part_001 lines 993-1065).  The parsed
local-storage history is a parameter; now is the clock value used for a record
without createdAt.  Returns none exactly when the source returns null. -/
def reconcileItemBatchMap (now : Int) (parsedHistory : List RawBatchRecord)
    (inventoryItems : List Item) (currentMap : BatchMap) : Option BatchMap :=
  if inventoryItems.isEmpty then none
  else
    let history := prepHistory parsedHistory
    if history.isEmpty then none
    else
      let unassigned := inventoryItems.filter fun item =>
        decide (item.status = ItemStatus.in_stock) &&
          !(truthyStr item.batchRef || truthyStr (mapLookup currentMap item.id))
      let final := history.foldl (processRecord unassigned now) ⟨currentMap, [], false⟩
      if final.changed then some final.nextMap else none

/-! ### Comparator lemmas -/

lemma candLe_iff (r : RecItem) (d : Int) (a b : Item) :
    candLe r d a b = true ↔
      (saleMatchN r b < saleMatchN r a
       ∨ (saleMatchN r a = saleMatchN r b
          ∧ (qtyDistance r a < qtyDistance r b
             ∨ (qtyDistance r a = qtyDistance r b
                ∧ dateDistance d a ≤ dateDistance d b)))) := by
  by_cases h1 : saleMatchN r a = saleMatchN r b
  · by_cases h2 : qtyDistance r a = qtyDistance r b
    · simp only [candLe]
      rw [if_neg (not_not.mpr h1), if_neg (not_not.mpr h2)]
      simp [h1, h2]
    · simp only [candLe]
      rw [if_neg (not_not.mpr h1), if_pos h2]
      simp [h1, h2]
  · simp only [candLe]
    rw [if_pos h1]
    simp [h1]

lemma candLe_refl (r : RecItem) (d : Int) (a : Item) : candLe r d a a = true := by
  unfold candLe
  simp

lemma candLe_total (r : RecItem) (d : Int) (a b : Item) :
    candLe r d a b || candLe r d b a := by
  rw [Bool.or_eq_true, candLe_iff, candLe_iff]
  rcases lt_trichotomy (saleMatchN r a) (saleMatchN r b) with h | h | h
  · exact Or.inr (Or.inl h)
  · rcases lt_trichotomy (qtyDistance r a) (qtyDistance r b) with hq | hq | hq
    · exact Or.inl (Or.inr ⟨h, Or.inl hq⟩)
    · rcases le_total (dateDistance d a) (dateDistance d b) with hd | hd
      · exact Or.inl (Or.inr ⟨h, Or.inr ⟨hq, hd⟩⟩)
      · exact Or.inr (Or.inr ⟨h.symm, Or.inr ⟨hq.symm, hd⟩⟩)
    · exact Or.inr (Or.inr ⟨h.symm, Or.inl hq⟩)
  · exact Or.inl (Or.inl h)

lemma candLe_trans (r : RecItem) (d : Int) (a b c : Item)
    (hab : candLe r d a b) (hbc : candLe r d b c) : candLe r d a c := by
  rw [candLe_iff] at hab hbc ⊢
  rcases hab with h1 | ⟨h1, h2⟩
  · rcases hbc with g1 | ⟨g1, g2⟩
    · exact Or.inl (lt_trans g1 h1)
    · exact Or.inl (g1 ▸ h1)
  · rcases hbc with g1 | ⟨g1, g2⟩
    · exact Or.inl (h1 ▸ g1)
    · refine Or.inr ⟨h1.trans g1, ?_⟩
      rcases h2 with h2 | ⟨h2, h3⟩
      · rcases g2 with g2 | ⟨g2, g3⟩
        · exact Or.inl (lt_trans h2 g2)
        · exact Or.inl (g2 ▸ h2)
      · rcases g2 with g2 | ⟨g2, g3⟩
        · exact Or.inl (h2 ▸ g2)
        · exact Or.inr ⟨h2.trans g2, h3.trans g3⟩

lemma bestMatch_cons {r : RecItem} {d : Int} {cands : List Item} {b : Item}
    (h : bestMatch r d cands = some b) :
    cands.mergeSort (candLe r d) = b :: (cands.mergeSort (candLe r d)).tail :=
  List.eq_cons_of_mem_head? (by simpa [Option.mem_def] using h)

lemma bestMatch_mem {r : RecItem} {d : Int} {cands : List Item} {b : Item}
    (h : bestMatch r d cands = some b) : b ∈ cands := by
  have hcons := bestMatch_cons h
  exact (List.mem_mergeSort).mp (hcons ▸ List.mem_cons_self b _)

lemma bestMatch_minimal {r : RecItem} {d : Int} {cands : List Item} {b : Item}
    (h : bestMatch r d cands = some b) : ∀ c ∈ cands, candLe r d b c := by
  intro c hc
  have hcons := bestMatch_cons h
  have hsorted : (cands.mergeSort (candLe r d)).Pairwise fun a b => candLe r d a b :=
    List.sorted_mergeSort (fun a b c => candLe_trans r d a b c)
      (fun a b => candLe_total r d a b) cands
  rw [hcons] at hsorted
  have hc' : c ∈ b :: (cands.mergeSort (candLe r d)).tail :=
    hcons ▸ (List.mem_mergeSort).mpr hc
  rcases List.mem_cons.mp hc' with rfl | hmem
  · exact candLe_refl r d c
  · exact (List.pairwise_cons.mp hsorted).1 c hmem

/-- C5: reconciliation processes the batch history newest-first (the prepared
history is sorted by createdAt descending), and the selected best match among
the candidates is optimal for the strict priority: a rounded sale-price match
beats a non-match, then the smaller absolute quantity difference wins, then the
smaller absolute time distance to the record creation date wins. -/
theorem reconcile_order_and_selection :
    (∀ parsedHistory : List RawBatchRecord,
      (prepHistory parsedHistory).Pairwise
        fun a b => (b.createdAt.getD 0 : Int) ≤ (a.createdAt.getD 0)) ∧
    (∀ (recordItem : RecItem) (recordDate : Int) (candidates : List Item) (b : Item),
      bestMatch recordItem recordDate candidates = some b →
        b ∈ candidates ∧
        ∀ c ∈ candidates,
          saleMatchN recordItem c < saleMatchN recordItem b
          ∨ (saleMatchN recordItem b = saleMatchN recordItem c
             ∧ (qtyDistance recordItem b < qtyDistance recordItem c
                ∨ (qtyDistance recordItem b = qtyDistance recordItem c
                   ∧ dateDistance recordDate b ≤ dateDistance recordDate c)))) := by
  constructor
  · intro ph
    have htrans : ∀ a b c : RawBatchRecord,
        decide ((b.createdAt.getD 0) ≤ (a.createdAt.getD 0)) = true →
        decide ((c.createdAt.getD 0) ≤ (b.createdAt.getD 0)) = true →
        decide ((c.createdAt.getD 0) ≤ (a.createdAt.getD 0)) = true := by
      intro a b c hab hbc
      simp only [decide_eq_true_eq] at *
      omega
    have htotal : ∀ a b : RawBatchRecord,
        (decide ((b.createdAt.getD 0) ≤ (a.createdAt.getD 0))
          || decide ((a.createdAt.getD 0) ≤ (b.createdAt.getD 0))) = true := by
      intro a b
      simp only [Bool.or_eq_true, decide_eq_true_eq]
      omega
    have h := List.sorted_mergeSort htrans htotal
      (ph.filter fun record => truthyStr record.batchCode)
    exact h.imp fun {a b} hab => by simpa using hab
  · intro recordItem recordDate candidates b h
    refine ⟨bestMatch_mem h, fun c hc => ?_⟩
    exact (candLe_iff recordItem recordDate b c).mp (bestMatch_minimal h c hc)

/-- Witness for C5: a concrete two-record history is sorted newest-first by
prepHistory, and the best match over a concrete candidate list is selected with
the claimed optimality. -/
theorem reconcile_order_and_selection_witness :
    (prepHistory [{ batchCode := some "T-002", createdAt := some 5 },
                  { batchCode := some "T-001", createdAt := some 9 }]).Pairwise
      (fun a b => (b.createdAt.getD 0 : Int) ≤ (a.createdAt.getD 0)) ∧
    ((⟨1, "a", 10, some 5, 1, 3, none, ItemStatus.in_stock, ItemCondition.nuevo, none⟩ : Item)
        ∈ [(⟨1, "a", 10, some 5, 1, 3, none, ItemStatus.in_stock, ItemCondition.nuevo, none⟩ : Item)] ∧
      ∀ c ∈ [(⟨1, "a", 10, some 5, 1, 3, none, ItemStatus.in_stock, ItemCondition.nuevo, none⟩ : Item)],
        saleMatchN ⟨"a", 1, 5, ItemCondition.nuevo, Disposition.sell⟩ c
            < saleMatchN ⟨"a", 1, 5, ItemCondition.nuevo, Disposition.sell⟩
                ⟨1, "a", 10, some 5, 1, 3, none, ItemStatus.in_stock, ItemCondition.nuevo, none⟩
        ∨ (saleMatchN ⟨"a", 1, 5, ItemCondition.nuevo, Disposition.sell⟩
              ⟨1, "a", 10, some 5, 1, 3, none, ItemStatus.in_stock, ItemCondition.nuevo, none⟩
            = saleMatchN ⟨"a", 1, 5, ItemCondition.nuevo, Disposition.sell⟩ c
           ∧ (qtyDistance ⟨"a", 1, 5, ItemCondition.nuevo, Disposition.sell⟩
                ⟨1, "a", 10, some 5, 1, 3, none, ItemStatus.in_stock, ItemCondition.nuevo, none⟩
              < qtyDistance ⟨"a", 1, 5, ItemCondition.nuevo, Disposition.sell⟩ c
            ∨ (qtyDistance ⟨"a", 1, 5, ItemCondition.nuevo, Disposition.sell⟩
                  ⟨1, "a", 10, some 5, 1, 3, none, ItemStatus.in_stock, ItemCondition.nuevo, none⟩
                = qtyDistance ⟨"a", 1, 5, ItemCondition.nuevo, Disposition.sell⟩ c
              ∧ dateDistance 7
                  ⟨1, "a", 10, some 5, 1, 3, none, ItemStatus.in_stock, ItemCondition.nuevo, none⟩
                ≤ dateDistance 7 c)))) :=
  ⟨reconcile_order_and_selection.1
      [{ batchCode := some "T-002", createdAt := some 5 },
       { batchCode := some "T-001", createdAt := some 9 }],
   reconcile_order_and_selection.2 ⟨"a", 1, 5, ItemCondition.nuevo, Disposition.sell⟩ 7
      [⟨1, "a", 10, some 5, 1, 3, none, ItemStatus.in_stock, ItemCondition.nuevo, none⟩]
      ⟨1, "a", 10, some 5, 1, 3, none, ItemStatus.in_stock, ItemCondition.nuevo, none⟩
      (by simp [bestMatch, List.mergeSort])⟩

/-! ### Reconciliation pass invariants -/

lemma mapLookup_insert_ne (m : BatchMap) (id0 : Nat) (code : String) (id : Nat)
    (h : id ≠ id0) : mapLookup (mapInsert m id0 code) id = mapLookup m id := by
  simp only [mapLookup, mapInsert, List.lookup]
  rw [show (id == id0) = false by simpa using h]

lemma mapLookup_insert_self (m : BatchMap) (id0 : Nat) (code : String) :
    mapLookup (mapInsert m id0 code) id0 = some code := by
  simp [mapLookup, mapInsert, List.lookup]

/-- Each line-item step either leaves the state unchanged or tags a single item
drawn from the unconsumed pool. -/
lemma processRecordItem_spec (unassigned : List Item) (batchCode : String)
    (recordDate : Int) (s : RecoState) (recordItem : RecItem) :
    processRecordItem unassigned batchCode recordDate s recordItem = s ∨
    ∃ b : Item, b ∈ unassigned ∧ s.usedIds.contains b.id = false ∧
      processRecordItem unassigned batchCode recordDate s recordItem
        = { nextMap := mapInsert s.nextMap b.id batchCode
            usedIds := b.id :: s.usedIds
            changed := true } := by
  simp only [processRecordItem]
  by_cases hemp : (((unassigned.filter fun item => !(s.usedIds.contains item.id)).filter
      fun item =>
        decide (normalizeText item.productName = normalizeText recordItem.productName)).filter
      fun item => decide (item.condition = recordItem.condition)).isEmpty
  · rw [if_pos hemp]
    exact Or.inl rfl
  · rw [if_neg hemp]
    cases hbm : bestMatch recordItem recordDate
        (((unassigned.filter fun item => !(s.usedIds.contains item.id)).filter
          fun item =>
            decide (normalizeText item.productName = normalizeText recordItem.productName)).filter
          fun item => decide (item.condition = recordItem.condition)) with
    | none => exact Or.inl rfl
    | some b =>
      have hb := bestMatch_mem hbm
      simp only [List.mem_filter] at hb
      refine Or.inr ⟨b, hb.1.1.1, ?_, rfl⟩
      have := hb.1.1.2
      simpa using this

lemma foldl_preserves {σ α : Type} (P : σ → Prop) (f : σ → α → σ)
    (hf : ∀ s a, P s → P (f s a)) : ∀ (l : List α) (s : σ), P s → P (l.foldl f s) := by
  intro l
  induction l with
  | nil => intro s hs; exact hs
  | cons x xs ih => intro s hs; exact ih _ (hf s x hs)

/-- Members of the untagged pool have no truthy explicit batchRef and no truthy
existing map entry. -/
lemma unassigned_pool (items : List Item) (m0 : BatchMap) :
    ∀ i ∈ items.filter fun item =>
        decide (item.status = ItemStatus.in_stock) &&
          !(truthyStr item.batchRef || truthyStr (mapLookup m0 item.id)),
      i ∈ items ∧ truthyStr i.batchRef = false ∧ truthyStr (mapLookup m0 i.id) = false := by
  intro i hi
  simp only [List.mem_filter, Bool.and_eq_true, Bool.not_eq_true',
    Bool.or_eq_false_iff] at hi
  exact ⟨hi.1, hi.2.2.1, hi.2.2.2⟩

/-- The invariant carried through one reconciliation pass over the pool
unassigned with starting map m0: any binding differing from m0 belongs to a
consumed id, and every consumed id is the id of some pool item. -/
def PassInv (unassigned : List Item) (m0 : BatchMap) (s : RecoState) : Prop :=
  (∀ id : Nat, mapLookup s.nextMap id ≠ mapLookup m0 id → id ∈ s.usedIds) ∧
  (∀ id ∈ s.usedIds, ∃ j ∈ unassigned, j.id = id)

lemma processRecordItem_passInv (unassigned : List Item) (m0 : BatchMap)
    (batchCode : String) (recordDate : Int) (s : RecoState) (recordItem : RecItem)
    (h : PassInv unassigned m0 s) :
    PassInv unassigned m0 (processRecordItem unassigned batchCode recordDate s recordItem) := by
  rcases processRecordItem_spec unassigned batchCode recordDate s recordItem with
    heq | ⟨b, hbu, hbc, heq⟩
  · rw [heq]; exact h
  · rw [heq]
    constructor
    · intro id hid
      by_cases hidb : id = b.id
      · exact hidb ▸ List.mem_cons_self _ _
      · rw [mapLookup_insert_ne s.nextMap b.id batchCode id hidb] at hid
        exact List.mem_cons_of_mem _ (h.1 id hid)
    · intro id hid
      rcases List.mem_cons.mp hid with rfl | hmem
      · exact ⟨b, hbu, rfl⟩
      · exact h.2 id hmem

/-- One step never disturbs a truthy binding, provided the pool is untagged in
m0 and the state satisfies the pass invariant. -/
lemma processRecordItem_keeps (unassigned : List Item) (m0 : BatchMap)
    (batchCode : String) (recordDate : Int) (s : RecoState) (recordItem : RecItem)
    (hpool : ∀ i ∈ unassigned, truthyStr (mapLookup m0 i.id) = false)
    (hinv : PassInv unassigned m0 s)
    (id : Nat) (v : String) (hv : mapLookup s.nextMap id = some v) (hvne : v ≠ "") :
    mapLookup (processRecordItem unassigned batchCode recordDate s recordItem).nextMap id
      = some v := by
  rcases processRecordItem_spec unassigned batchCode recordDate s recordItem with
    heq | ⟨b, hbu, hbc, heq⟩
  · rw [heq]; exact hv
  · rw [heq]
    by_cases hidb : id = b.id
    · exfalso
      rw [hidb] at hv
      by_cases hm : mapLookup s.nextMap b.id = mapLookup m0 b.id
      · have hf := hpool b hbu
        rw [← hm, hv] at hf
        simp only [truthyStr] at hf
        exact hvne (by simpa using hf)
      · have hmem := hinv.1 b.id hm
        have hnot : b.id ∉ s.usedIds := by simpa using hbc
        exact hnot hmem
    · rw [mapLookup_insert_ne s.nextMap b.id batchCode id hidb]
      exact hv

/-- C6 (amended): within a single reconciliation pass no item id is given two
different batch codes and each historical line item tags at most one inventory
item: a line-item step changes the map at no more than one id, a step never
disturbs an existing truthy binding (given the pass invariant), and a full pass
preserves every truthy entry of the incoming map and never retags an item whose
explicit batchRef is truthy.  However, re-running reconciliation on its own
output is NOT always a no-op (see the counterexample): a second pass can tag a
further item that matches the same line item; it still never overwrites the
tags of the first pass. -/
theorem reconcile_tagging_invariants :
    (∀ (unassigned : List Item) (batchCode : String) (recordDate : Int)
        (s : RecoState) (recordItem : RecItem),
      ∃ bid : Nat, ∀ id : Nat, id ≠ bid →
        mapLookup (processRecordItem unassigned batchCode recordDate s recordItem).nextMap id
          = mapLookup s.nextMap id) ∧
    (∀ (unassigned : List Item) (m0 : BatchMap) (batchCode : String) (recordDate : Int)
        (s : RecoState) (recordItem : RecItem),
      (∀ i ∈ unassigned, truthyStr (mapLookup m0 i.id) = false) →
      PassInv unassigned m0 s →
      ∀ (id : Nat) (v : String), mapLookup s.nextMap id = some v → v ≠ "" →
        mapLookup (processRecordItem unassigned batchCode recordDate s recordItem).nextMap id
          = some v) ∧
    (∀ (now : Int) (ph : List RawBatchRecord) (items : List Item) (m0 m' : BatchMap),
      (items.map Item.id).Nodup →
      reconcileItemBatchMap now ph items m0 = some m' →
      (∀ (id : Nat) (v : String), mapLookup m0 id = some v → v ≠ "" →
        mapLookup m' id = some v) ∧
      (∀ i ∈ items, truthyStr i.batchRef = true →
        mapLookup m' i.id = mapLookup m0 i.id)) := by
  refine ⟨?_, ?_, ?_⟩
  · intro u code d s r
    rcases processRecordItem_spec u code d s r with heq | ⟨b, _, _, heq⟩
    · exact ⟨0, fun id _ => by rw [heq]⟩
    · exact ⟨b.id, fun id hid => by
        rw [heq]
        exact mapLookup_insert_ne s.nextMap b.id code id hid⟩
  · intro u m0 code d s r hpool hinv id v hv hvne
    exact processRecordItem_keeps u m0 code d s r hpool hinv id v hv hvne
  · intro now ph items m0 m' hnodup hrun
    simp only [reconcileItemBatchMap] at hrun
    by_cases h0 : items.isEmpty
    · rw [if_pos h0] at hrun; exact absurd hrun (by simp)
    rw [if_neg h0] at hrun
    by_cases h1 : (prepHistory ph).isEmpty
    · rw [if_pos h1] at hrun; exact absurd hrun (by simp)
    rw [if_neg h1] at hrun
    set U := items.filter (fun item =>
      decide (item.status = ItemStatus.in_stock) &&
        !(truthyStr item.batchRef || truthyStr (mapLookup m0 item.id))) with hU
    set final := (prepHistory ph).foldl (processRecord U now)
      ⟨m0, [], false⟩ with hfinal
    by_cases hch : final.changed
    · rw [if_pos hch] at hrun
      have hm' : final.nextMap = m' := by simpa using hrun
      have hpool : ∀ i ∈ U, truthyStr (mapLookup m0 i.id) = false :=
        fun i hi => (unassigned_pool items m0 i hi).2.2
      have hinit : PassInv U m0 ⟨m0, [], false⟩ :=
        ⟨fun idq hq => absurd rfl hq, fun idq hq => absurd hq (List.not_mem_nil idq)⟩
      have hinvF : PassInv U m0 final := by
        rw [hfinal]
        refine foldl_preserves (PassInv U m0) (processRecord U now) ?_ (prepHistory ph)
          ⟨m0, [], false⟩ hinit
        intro s rec hs
        simp only [processRecord]
        exact foldl_preserves (PassInv U m0) _
          (fun s' ri hs' => processRecordItem_passInv U m0 _ _ s' ri hs') _ s hs
      constructor
      · intro id v hv hvne
        have hkeep : PassInv U m0 final ∧ mapLookup final.nextMap id = some v := by
          rw [hfinal]
          refine foldl_preserves
            (fun s => PassInv U m0 s ∧ mapLookup s.nextMap id = some v)
            (processRecord U now) ?_ (prepHistory ph) ⟨m0, [], false⟩ ⟨hinit, hv⟩
          intro s rec hs
          simp only [processRecord]
          refine foldl_preserves
            (fun t => PassInv U m0 t ∧ mapLookup t.nextMap id = some v) _ ?_ _ s hs
          intro s' ri hs'
          exact ⟨processRecordItem_passInv U m0 _ _ s' ri hs'.1,
                 processRecordItem_keeps U m0 _ _ s' ri hpool hs'.1 id v hs'.2 hvne⟩
        rw [← hm']
        exact hkeep.2
      · intro i hi htruthy
        by_contra hne
        have hdiff : mapLookup final.nextMap i.id ≠ mapLookup m0 i.id := by
          rw [hm']; exact hne
        obtain ⟨j, hjU, hjid⟩ := hinvF.2 i.id (hinvF.1 i.id hdiff)
        have hj := unassigned_pool items m0 j hjU
        have hij : i = j :=
          List.inj_on_of_nodup_map hnodup hi hj.1 hjid.symm
        rw [hij, hj.2.1] at htruthy
        exact Bool.false_ne_true htruthy
    · rw [if_neg hch] at hrun
      exact absurd hrun (by simp)

/-- C6 counterexample: reconciliation is not idempotent on its own output.
With two identical untagged stock items and a single historical sell line item,
the first pass tags item 1; re-running on the resulting map tags item 2 and
returns a changed map instead of null. -/
theorem reconcile_not_idempotent :
    reconcileItemBatchMap 0
        [{ batchCode := some "T-001", createdAt := some 0,
           items := some [{ productName := some "a", quantity := some 1,
                            unitSalePrice := some 5,
                            condition := some ItemCondition.nuevo,
                            disposition := some Disposition.sell }] }]
        [⟨1, "a", 10, none, 1, 0, none, ItemStatus.in_stock, ItemCondition.nuevo, none⟩,
         ⟨2, "a", 10, none, 1, 0, none, ItemStatus.in_stock, ItemCondition.nuevo, none⟩]
        [] = some [(1, "T-001")] ∧
    reconcileItemBatchMap 0
        [{ batchCode := some "T-001", createdAt := some 0,
           items := some [{ productName := some "a", quantity := some 1,
                            unitSalePrice := some 5,
                            condition := some ItemCondition.nuevo,
                            disposition := some Disposition.sell }] }]
        [⟨1, "a", 10, none, 1, 0, none, ItemStatus.in_stock, ItemCondition.nuevo, none⟩,
         ⟨2, "a", 10, none, 1, 0, none, ItemStatus.in_stock, ItemCondition.nuevo, none⟩]
        [(1, "T-001")] = some [(2, "T-001"), (1, "T-001")] := by
  constructor
  · norm_num +decide [reconcileItemBatchMap, prepHistory, processRecord, processRecordItem,
      cleanRecordItems, bestMatch, candLe, saleMatchN, qtyDistance, dateDistance,
      jsOrQ, jsOrN, jsOrStr, jsRound, truthyStr, mapLookup, mapInsert, normalizeText,
      List.mergeSort, List.lookup]
  · norm_num +decide [reconcileItemBatchMap, prepHistory, processRecord, processRecordItem,
      cleanRecordItems, bestMatch, candLe, saleMatchN, qtyDistance, dateDistance,
      jsOrQ, jsOrN, jsOrStr, jsRound, truthyStr, mapLookup, mapInsert, normalizeText,
      List.mergeSort, List.lookup]

/-- Witness for C6: the three parts of the invariants theorem applied at
concrete inputs, including a concrete first reconciliation run. -/
theorem reconcile_tagging_invariants_witness :
    (∃ bid : Nat, ∀ id : Nat, id ≠ bid →
      mapLookup (processRecordItem [] "c" 0 ⟨[(5, "T-009")], [], false⟩
          ⟨"a", 1, 5, ItemCondition.nuevo, Disposition.sell⟩).nextMap id
        = mapLookup [(5, "T-009")] id) ∧
    mapLookup (processRecordItem [] "c" 0 ⟨[(5, "T-009")], [], false⟩
        ⟨"a", 1, 5, ItemCondition.nuevo, Disposition.sell⟩).nextMap 5
      = some "T-009" ∧
    ((∀ (id : Nat) (v : String), mapLookup [] id = some v → v ≠ "" →
        mapLookup [(1, "T-001")] id = some v) ∧
     (∀ i ∈ [(⟨1, "a", 10, none, 1, 0, none, ItemStatus.in_stock, ItemCondition.nuevo, none⟩ : Item),
              ⟨2, "a", 10, none, 1, 0, none, ItemStatus.in_stock, ItemCondition.nuevo, none⟩],
        truthyStr i.batchRef = true →
          mapLookup [(1, "T-001")] i.id = mapLookup [] i.id)) :=
  ⟨reconcile_tagging_invariants.1 [] "c" 0 ⟨[(5, "T-009")], [], false⟩
      ⟨"a", 1, 5, ItemCondition.nuevo, Disposition.sell⟩,
   reconcile_tagging_invariants.2.1 [] [(5, "T-009")] "c" 0 ⟨[(5, "T-009")], [], false⟩
      ⟨"a", 1, 5, ItemCondition.nuevo, Disposition.sell⟩
      (by simp)
      ⟨fun id h => absurd rfl h, fun id h => absurd h (List.not_mem_nil id)⟩
      5 "T-009" (by decide) (by decide),
   reconcile_tagging_invariants.2.2 0
      [{ batchCode := some "T-001", createdAt := some 0,
         items := some [{ productName := some "a", quantity := some 1,
                          unitSalePrice := some 5,
                          condition := some ItemCondition.nuevo,
                          disposition := some Disposition.sell }] }]
      [⟨1, "a", 10, none, 1, 0, none, ItemStatus.in_stock, ItemCondition.nuevo, none⟩,
       ⟨2, "a", 10, none, 1, 0, none, ItemStatus.in_stock, ItemCondition.nuevo, none⟩]
      [] [(1, "T-001")] (by decide)
      (by norm_num +decide [reconcileItemBatchMap, prepHistory, processRecord,
        processRecordItem, cleanRecordItems, bestMatch, candLe, saleMatchN,
        qtyDistance, dateDistance, jsOrQ, jsOrN, jsOrStr, jsRound, truthyStr,
        mapLookup, mapInsert, normalizeText, List.mergeSort, List.lookup])⟩

/-! ## Batch history deletion (deleteBatchRecord, part_001 lines 2679-2713) -/

/-- The batch type labels used by the source. -/
inductive BatchType
  | venta
  | mixta
  | retenido
deriving DecidableEq, Repr

/-- The persisted batch summary record (source type BatchRecord). -/
structure BatchRecordFull where
  id : Nat
  batchCode : String
  batchType : BatchType
  createdAt : Int
  totalPaid : ℚ
  totalSellRevenue : ℚ
  cashProfit : ℚ
  retainedValue : ℚ
  itemsCount : Nat
  items : List PricingItem
deriving DecidableEq, Repr

/-- The state touched by deleteBatchRecord: the batch history, the item store,
and the side index. -/
structure CascadeResult where
  history : List BatchRecordFull
  store : List DbItem
  map : BatchMap

/-- Translation of deleteBatchRecord (part_001 lines 2679-2713), with the user
confirmation taken as accepted.  inventoryItems is the loaded application view
of the store.  Every item whose resolved batch reference equals the batchCode
of the target record is deleted from the store, the record is removed from the
history, and the side-index entries of the deleted items are dropped. -/
def deleteBatchRecord (history : List BatchRecordFull) (recordId : Nat)
    (inventoryItems : List Item) (m : BatchMap) (store : List DbItem) : CascadeResult :=
  match history.find? (fun record => record.id == recordId) with
  | none => ⟨history, store, m⟩
  | some target =>
    let relatedItems := inventoryItems.filter fun item =>
      decide (getItemBatchRef m item = some target.batchCode)
    let store' := relatedItems.foldl (fun s item => deleteItem s item.id) store
    let history' := history.filter fun record => decide (record.id ≠ recordId)
    let m' := m.filter fun e => !(relatedItems.any fun item => item.id == e.1)
    ⟨history', store', m'⟩

lemma foldl_deleteItem_mem (related : List Item) :
    ∀ (store : List DbItem) (r : DbItem),
      r ∈ related.foldl (fun s item => deleteItem s item.id) store ↔
        (r ∈ store ∧ ∀ i ∈ related, i.id ≠ r.id) := by
  induction related with
  | nil => intro store r; simp
  | cons x xs ih =>
    intro store r
    simp only [List.foldl_cons]
    rw [ih]
    simp only [deleteItem, List.mem_filter, decide_eq_true_eq]
    constructor
    · rintro ⟨⟨hr, hne⟩, hall⟩
      refine ⟨hr, fun i hi => ?_⟩
      rcases List.mem_cons.mp hi with rfl | hi
      · exact fun h => hne h.symm
      · exact hall i hi
    · rintro ⟨hr, hall⟩
      exact ⟨⟨hr, fun h => hall x (List.mem_cons_self _ _) h.symm⟩,
             fun i hi => hall i (List.mem_cons_of_mem _ hi)⟩

lemma lookup_filter_not_any (related : List Item) (id : Nat)
    (h : ∃ i ∈ related, i.id = id) :
    ∀ m : List (Nat × String),
      mapLookup (m.filter fun e => !(related.any fun item => item.id == e.1)) id = none := by
  intro m
  induction m with
  | nil => simp [mapLookup]
  | cons e es ih =>
    obtain ⟨k, v⟩ := e
    by_cases he : related.any (fun item => item.id == (k, v).1)
    · simp only [List.filter_cons]
      rw [show (!(related.any fun item => item.id == (k, v).1)) = false by simpa using he]
      exact ih
    · obtain ⟨i, hi, hid⟩ := h
      have hnotany : ¬ (related.any fun item => item.id == (k, v).1) = true := he
      rw [List.any_eq_true] at hnotany
      have hidk : id ≠ k := by
        intro hEq
        exact hnotany ⟨i, hi, by simp [hid, hEq]⟩
      simp only [List.filter_cons]
      rw [show (!(related.any fun item => item.id == (k, v).1)) = true by simpa using he]
      simp only [mapLookup, List.lookup]
      rw [show (id == k) = false by simpa using hidk]
      exact ih

/-- C8: deleting a batch record cascades.  When the record is found, a row
survives in the store exactly when no inventory item whose resolved batch
reference equals the batchCode of the record carries its id; the record itself
is removed from the history while all other records stay; and the resulting
side index contains no entry for any of the deleted item ids. -/
theorem deleteBatchRecord_cascades (history : List BatchRecordFull) (recordId : Nat)
    (inventoryItems : List Item) (m : BatchMap) (store : List DbItem)
    (target : BatchRecordFull)
    (hfind : history.find? (fun record => record.id == recordId) = some target) :
    (∀ r : DbItem,
      r ∈ (deleteBatchRecord history recordId inventoryItems m store).store ↔
        (r ∈ store ∧ ∀ i ∈ inventoryItems,
          getItemBatchRef m i = some target.batchCode → i.id ≠ r.id)) ∧
    (∀ rec ∈ (deleteBatchRecord history recordId inventoryItems m store).history,
      rec.id ≠ recordId) ∧
    (∀ rec ∈ history, rec.id ≠ recordId →
      rec ∈ (deleteBatchRecord history recordId inventoryItems m store).history) ∧
    (∀ i ∈ inventoryItems, getItemBatchRef m i = some target.batchCode →
      mapLookup (deleteBatchRecord history recordId inventoryItems m store).map i.id
        = none) := by
  simp only [deleteBatchRecord, hfind]
  refine ⟨?_, ?_, ?_, ?_⟩
  · intro r
    rw [foldl_deleteItem_mem]
    constructor
    · rintro ⟨hr, hall⟩
      exact ⟨hr, fun i hi hpred =>
        hall i (List.mem_filter.mpr ⟨hi, by simpa using hpred⟩)⟩
    · rintro ⟨hr, hall⟩
      refine ⟨hr, fun i hi => ?_⟩
      have hfi := List.mem_filter.mp hi
      exact hall i hfi.1 (by simpa using hfi.2)
  · intro rec hrec
    have hfi := List.mem_filter.mp hrec
    simpa using hfi.2
  · intro rec hrec hne
    exact List.mem_filter.mpr ⟨hrec, by simpa using hne⟩
  · intro i hi hpred
    exact lookup_filter_not_any _ i.id
      ⟨i, List.mem_filter.mpr ⟨hi, by simpa using hpred⟩, rfl⟩ m

/-- Witness for C8: deleting the only batch record, with one tagged item in the
store and in the side index; the store row is deleted, the history is emptied,
and the side-index entry is gone. -/
theorem deleteBatchRecord_cascades_witness :
    (∀ r : DbItem,
      r ∈ (deleteBatchRecord [⟨1, "T-001", BatchType.venta, 0, 0, 0, 0, 0, 0, []⟩] 1
          [⟨1, "a", 10, none, 1, 0, none, ItemStatus.in_stock, ItemCondition.nuevo, some "T-001"⟩]
          [(1, "T-001")]
          [⟨1, "a", 10, none, 1, 0, none, ItemStatus.in_stock, ItemCondition.nuevo, some "T-001"⟩]).store ↔
        (r ∈ [⟨1, "a", 10, none, 1, 0, none, ItemStatus.in_stock, ItemCondition.nuevo, some "T-001"⟩] ∧
          ∀ i ∈ [(⟨1, "a", 10, none, 1, 0, none, ItemStatus.in_stock, ItemCondition.nuevo, some "T-001"⟩ : Item)],
            getItemBatchRef [(1, "T-001")] i
                = some (⟨1, "T-001", BatchType.venta, 0, 0, 0, 0, 0, 0, []⟩ : BatchRecordFull).batchCode →
              i.id ≠ r.id)) ∧
    (∀ rec ∈ (deleteBatchRecord [⟨1, "T-001", BatchType.venta, 0, 0, 0, 0, 0, 0, []⟩] 1
          [⟨1, "a", 10, none, 1, 0, none, ItemStatus.in_stock, ItemCondition.nuevo, some "T-001"⟩]
          [(1, "T-001")]
          [⟨1, "a", 10, none, 1, 0, none, ItemStatus.in_stock, ItemCondition.nuevo, some "T-001"⟩]).history,
      rec.id ≠ 1) ∧
    (∀ rec ∈ [(⟨1, "T-001", BatchType.venta, 0, 0, 0, 0, 0, 0, []⟩ : BatchRecordFull)], rec.id ≠ 1 →
      rec ∈ (deleteBatchRecord [⟨1, "T-001", BatchType.venta, 0, 0, 0, 0, 0, 0, []⟩] 1
          [⟨1, "a", 10, none, 1, 0, none, ItemStatus.in_stock, ItemCondition.nuevo, some "T-001"⟩]
          [(1, "T-001")]
          [⟨1, "a", 10, none, 1, 0, none, ItemStatus.in_stock, ItemCondition.nuevo, some "T-001"⟩]).history) ∧
    (∀ i ∈ [(⟨1, "a", 10, none, 1, 0, none, ItemStatus.in_stock, ItemCondition.nuevo, some "T-001"⟩ : Item)],
      getItemBatchRef [(1, "T-001")] i
          = some (⟨1, "T-001", BatchType.venta, 0, 0, 0, 0, 0, 0, []⟩ : BatchRecordFull).batchCode →
        mapLookup (deleteBatchRecord [⟨1, "T-001", BatchType.venta, 0, 0, 0, 0, 0, 0, []⟩] 1
          [⟨1, "a", 10, none, 1, 0, none, ItemStatus.in_stock, ItemCondition.nuevo, some "T-001"⟩]
          [(1, "T-001")]
          [⟨1, "a", 10, none, 1, 0, none, ItemStatus.in_stock, ItemCondition.nuevo, some "T-001"⟩]).map i.id
          = none) :=
  deleteBatchRecord_cascades
    [⟨1, "T-001", BatchType.venta, 0, 0, 0, 0, 0, 0, []⟩] 1
    [⟨1, "a", 10, none, 1, 0, none, ItemStatus.in_stock, ItemCondition.nuevo, some "T-001"⟩]
    [(1, "T-001")]
    [⟨1, "a", 10, none, 1, 0, none, ItemStatus.in_stock, ItemCondition.nuevo, some "T-001"⟩]
    ⟨1, "T-001", BatchType.venta, 0, 0, 0, 0, 0, 0, []⟩
    (by decide)

end DashSpec
